import Mathlib

/-!
Verification of the jsonqlite JSON-document store (`src/ducttapedb.py`,
`src/hookloopdb/table.py`, `src/hookloopdb/model.py`) against its
natural-language specification.

The embedding models SQLite as seen through the exact statements the
source issues: a document table is a list of `(id, data)` rows plus the
AUTOINCREMENT sequence counter, and each Python method becomes a Lean
function over that state.  Query-construction code (the f-strings of
`search`, `search_advanced`, `aggregate`) is modelled as the literal SQL
text built by the source together with the bound-parameter list, so that
injection-safety claims are claims about the produced strings.
-/

mutual
/-- JSON values, as stored/retrieved by the store.  Numbers are modelled
as integers (the claims do not involve floating point).  Arrays and
objects are mutual inductives so that equality (deep equality, what
Python's `==` computes on parsed JSON) is decidable. -/
inductive Json where
  | null
  | bool (b : Bool)
  | int (n : Int)
  | str (s : String)
  | arr (xs : JsonArr)
  | obj (fs : JsonObj)
deriving DecidableEq
inductive JsonArr where
  | nil
  | cons (hd : Json) (tl : JsonArr)
deriving DecidableEq
inductive JsonObj where
  | nil
  | cons (k : String) (v : Json) (tl : JsonObj)
deriving DecidableEq
end

/-- Python `dict.get`: the value at the first matching key, if any. -/
def JsonObj.lookup : JsonObj → String → Option Json
  | .nil, _ => none
  | .cons k v tl, key => if k == key then some v else tl.lookup key

/-- A document table: the rows of `CREATE TABLE t (id INTEGER PRIMARY KEY
AUTOINCREMENT, data JSON NOT NULL)` plus SQLite's AUTOINCREMENT sequence
value `seq` (the largest id ever used; the next generated id is `seq + 1`). -/
structure Table where
  rows : List (Int × Json)
  seq : Int
deriving DecidableEq

/-- The ids of the rows, in row order. -/
def Table.ids (t : Table) : List Int := t.rows.map Prod.fst

/-- Does a row with this id exist?  (The id-conflict test of
`INSERT ... ON CONFLICT (id)`.) -/
def Table.hasId (t : Table) (i : Int) : Bool := t.rows.any (fun r => r.1 == i)

/-- `SELECT id, data FROM t WHERE id = ?` returning the first matching row. -/
def Table.findRow (t : Table) (i : Int) : Option (Int × Json) :=
  t.rows.find? (fun r => r.1 == i)

/-- The `DO UPDATE SET data = json(?)` branch: overwrite the data of the
row(s) with the given id, keeping ids unchanged. -/
def updateData (rows : List (Int × Json)) (i : Int) (d : Json) : List (Int × Json) :=
  rows.map (fun r => if r.1 == i then (i, d) else r)

/-- `INSERT INTO t (id, data) VALUES (?, json(?)) ON CONFLICT (id) DO
UPDATE SET data = json(?)` with an explicit id: update in place on
conflict, otherwise append a new row.  SQLite bumps the AUTOINCREMENT
sequence when an explicitly supplied rowid exceeds it. -/
def Table.upsertAt (t : Table) (i : Int) (d : Json) : Table :=
  if t.hasId i then { rows := updateData t.rows i d, seq := t.seq }
  else { rows := t.rows ++ [(i, d)], seq := max t.seq i }

/-- `INSERT INTO t (data) VALUES (json(?))` (or an explicit NULL id):
the engine generates id `seq + 1` and advances the sequence.  Returns
the new table and the generated rowid. -/
def Table.insertAuto (t : Table) (d : Json) : Table × Int :=
  ({ rows := t.rows ++ [(t.seq + 1, d)], seq := t.seq + 1 }, t.seq + 1)

/-- `DELETE FROM t WHERE id = ?`. -/
def Table.deleteRow (t : Table) (i : Int) : Table :=
  { rows := t.rows.filter (fun r => ¬ (r.1 == i)), seq := t.seq }

/-- Well-formedness maintained by every real SQLite AUTOINCREMENT table:
no id ever exceeds the sequence value. -/
def Table.WF (t : Table) : Prop := ∀ i ∈ t.ids, i ≤ t.seq

instance (t : Table) : Decidable t.WF := by
  unfold Table.WF; infer_instance

/-- Single-quote a string the way the source's f-strings do
(`'$.key'`), written with the escape for the quote character. -/
def sqQuote (s : String) : String := "\x27" ++ s ++ "\x27"

/-! ## Synchronous variant: `DuctTapeDB` (src/ducttapedb.py) -/

namespace DuctTapeDB

/-- Construction parameters of a `DuctTapeDB` instance: location string,
table name, and whether WAL journal mode is requested. -/
structure DB where
  path : String
  tableName : String
  wal : Bool
deriving DecidableEq

/-- A live sqlite3 connection as configured by `DuctTapeDB.connect`:
the location it was opened to and the PRAGMA state applied to it.
`journalMode` is whatever the engine reports after configuration
(`"delete"` is SQLite's default mode when WAL is not requested). -/
structure SqlConn where
  path : String
  foreignKeys : Bool
  busyTimeout : Int
  journalMode : String
deriving DecidableEq

/-- `DuctTapeDB.connect` (ducttapedb.py lines 51-75).  The class-level
`_local` gives every thread a single slot shared by *all* instances;
`slot` is that thread's current content.  `modeReply` is the engine's
answer to `PRAGMA journal_mode = WAL;` (consulted only when a new
connection is created and `wal` is set).  Returns the slot after the
call and the call's outcome.  Note the source assigns
`self._local.connection` *before* running the PRAGMAs, so on a failed
WAL switch the slot keeps the connection even though the call raises. -/
def connect (db : DB) (slot : Option SqlConn) (modeReply : String) :
    Option SqlConn × Except String SqlConn :=
  match slot with
  | some c => (some c, .ok c)
  | none =>
      let c : SqlConn :=
        { path := db.path
          foreignKeys := true
          busyTimeout := 5000
          journalMode := if db.wal then modeReply else "delete" }
      if db.wal ∧ modeReply ≠ "wal" then
        (some c, .error ("Failed to enable WAL mode. Current mode: " ++ modeReply))
      else
        (some c, .ok c)

/-- `DuctTapeDB.close` (lines 77-80): closes the thread's connection if
present and empties the slot; a no-op when the slot is empty. -/
def close (slot : Option SqlConn) : Option SqlConn := none

/-- Thread-local document-store state seen by one thread: the table the
connection reaches, plus sqlite's connection-level
`sqlite3_last_insert_rowid` value (0 on a fresh connection; updated only
when a statement actually inserts a row).  `cursor.lastrowid` of an
INSERT-class statement reads this value after the statement runs. -/
structure SyncConn where
  table : Table
  lastInsertRowid : Int
deriving DecidableEq

/-- `document.get("id")` for a document whose `id` member is an integer;
`none` when the member is absent or JSON null (bound as SQL NULL). -/
def getId : Json → Option Int
  | .obj fs =>
      match fs.lookup "id" with
      | some (.int i) => some i
      | _ => none
  | _ => none

/-- Documents this model covers: dicts whose `id` member is an integer,
null, or absent (other id types make the engine itself error out). -/
def idWellFormed : Json → Bool
  | .obj fs =>
      match fs.lookup "id" with
      | some (.int _) => true
      | some .null => true
      | none => true
      | _ => false
  | _ => false

/-- `DuctTapeDB.upsert_document` (lines 103-121): one
`INSERT INTO t (id, data) VALUES (?, json(?)) ON CONFLICT (id) DO UPDATE
SET data = json(?)` statement binding the whole JSON-dumped document as
`data`, then `return id_value or cursor.lastrowid` — Python truthiness,
so both a null id *and* id 0 fall back to `cursor.lastrowid`. -/
def upsert_document (c : SyncConn) (doc : Json) : SyncConn × Int :=
  let idv := getId doc
  let step : Table × Int :=
    match idv with
    | none => c.table.insertAuto doc
    | some i =>
        if c.table.hasId i then (c.table.upsertAt i doc, c.lastInsertRowid)
        else (c.table.upsertAt i doc, i)
  let ret : Int :=
    match idv with
    | none => step.2
    | some i => if i = 0 then step.2 else i
  ({ table := step.1, lastInsertRowid := step.2 }, ret)

/-- `DuctTapeDB.find` (lines 129-140): `SELECT id, data FROM t WHERE
id = ?`; `None` when no row matches, else `{"id": ..., "data": ...}`. -/
def find (c : SyncConn) (i : Int) : Option (Int × Json) :=
  c.table.findRow i

/-- `DuctTapeDB.delete_document` (lines 123-127): `DELETE FROM t WHERE
id = ?` and commit; total, no error on an absent id. -/
def delete_document (c : SyncConn) (i : Int) : SyncConn :=
  { c with table := c.table.deleteRow i }

/-- The SQL text `DuctTapeDB.search` (lines 142-153) executes.  It is a
fixed f-string: both the JSON key and the value are bound parameters
(`json_extract(data, '$.' || ?) = ?`); only the table name (set at
construction) is interpolated. -/
def searchSQL (tableName : String) : String :=
  "\n            SELECT id, data\n            FROM " ++ tableName ++
  "\n            WHERE json_extract(data, " ++ sqQuote "$." ++ " || ?) = ?\n        "

/-- `DuctTapeDB.search` as (SQL text, bound parameters). -/
def searchCall (tableName : String) (key : String) (value : Json) :
    String × List Json :=
  (searchSQL tableName, [Json.str key, value])

/-- A structured `where_values` condition of `DuctTapeDB.aggregate`:
`{"field": ..., "sign": ..., "value": ...}`. -/
structure AggCond where
  field : String
  sign : String
  value : Json
deriving DecidableEq

/-- The aggregate-operator allow-list (line 182). -/
def validOperations : List String := ["COUNT", "SUM", "AVG", "MIN", "MAX"]

/-- Python `str.upper()`: char-wise uppercasing (written as a plain map
over the characters so the kernel can evaluate it). -/
def pyUpper (s : String) : String := String.mk (s.data.map Char.toUpper)

/-- Python truthiness of the optional `where_raw` string. -/
def rawTruthy : Option String → Bool
  | some s => s ≠ ""
  | none => false

/-- Python truthiness of the optional `where_values` list. -/
def valuesTruthy : Option (List AggCond) → Bool
  | some l => ¬ l.isEmpty
  | none => false

/-- `DuctTapeDB.aggregate` (lines 155-213) up to query execution: the
validation checks in source order, then the (SQL text, parameters) the
method would execute.  `.error` means a ValueError is raised before any
query reaches the connection.  The aggregate key is bound
(`json_extract(data, '$.' || ?)`), structured `where_values` bind field
and value but interpolate `sign`, and `where_raw` is interpolated
verbatim. -/
def aggregate (tableName operation jsonKey : String)
    (whereValues : Option (List AggCond)) (whereRaw : Option String) :
    Except String (String × List Json) :=
  if ¬ (DuctTapeDB.pyUpper operation ∈ validOperations) then
    .error ("Invalid SQL aggregate function: " ++ operation)
  else if jsonKey = "" then
    .error "JSON key cannot be empty"
  else
    let base := "SELECT " ++ operation ++ "(json_extract(data, " ++
      sqQuote "$." ++ " || ?)) FROM " ++ tableName
    if rawTruthy whereRaw ∧ valuesTruthy whereValues then
      .error "Specify either \x27where_values\x27 or \x27where_raw\x27, not both."
    else if rawTruthy whereRaw then
      .ok (base ++ " WHERE " ++ whereRaw.getD "", [Json.str jsonKey])
    else if valuesTruthy whereValues then
      let conds := whereValues.getD []
      let clauses := conds.map (fun c =>
        "json_extract(data, " ++ sqQuote "$." ++ " || ?) " ++ c.sign ++ " ?")
      .ok (base ++ " WHERE " ++ String.intercalate " AND " clauses,
        Json.str jsonKey :: (conds.map (fun c => Json.str c.field) ++
          conds.map (fun c => c.value)))
    else
      .ok (base, [Json.str jsonKey])

end DuctTapeDB

/-! ## Asynchronous variant: `HookLoopTable` (src/hookloopdb/table.py) -/

namespace HookLoopTable

/-- A document as `HookLoopTable.upsert` reads it: `document.get("id")`
and `document.get("data", {})`. -/
structure Doc where
  id? : Option Int
  data : Json
deriving DecidableEq

/-- `HookLoopTable.upsert` (table.py lines 34-53): with a null id a plain
`INSERT INTO t (data) VALUES (json(?))` and `cursor.lastrowid` is
returned; with a non-null id the upsert statement runs and the given id
is returned (`cursor.lastrowid if id_value is None else id_value`). -/
def upsert (t : Table) (doc : Doc) : Table × Int :=
  match doc.id? with
  | none => t.insertAuto doc.data
  | some i => (t.upsertAt i doc.data, i)

/-- `HookLoopTable.find` (lines 55-62): `SELECT id, data FROM t WHERE
id = ?`, `None` when absent. -/
def find (t : Table) (i : Int) : Option (Int × Json) :=
  t.findRow i

/-- `HookLoopTable.delete_document` (lines 184-195). -/
def delete_document (t : Table) (i : Int) : Table :=
  t.deleteRow i

/-- One entry of the `conditions` dict of `HookLoopTable.search`. -/
structure DictCond where
  key : String
  value : Json
deriving DecidableEq

/-- One condition dict of `HookLoopTable.search_advanced`:
`{"key": ..., "value": ..., "operator": ...}`; `operator` defaults to
`"="` via `condition.get("operator", "=")`. -/
structure AdvCond where
  key : String
  value : Json
  operator? : Option String
deriving DecidableEq

/-- The comparison-operator allow-list of `search_advanced` (line 154). -/
def allowedOperators : List String := ["=", "!=", "<", ">", "<=", ">="]

/-- `HookLoopTable.search` (lines 85-132) up to query execution.  The
`id` key is pulled out and matched as a column; every *other* field name
is interpolated into the SQL text via `f"json_extract(data, '$.{key}')
= ?"` — only the values are bound.  An empty conditions dict raises
ValueError before any query. -/
def search (tableName : String) (conds : List DictCond) :
    Except String (String × List Json) :=
  if conds.isEmpty then .error "Conditions cannot be empty."
  else
    let idCond : Option Json :=
      match conds.find? (fun c => c.key == "id") with
      | none => none
      | some c => if c.value = Json.null then none else some c.value
    let rest := conds.filter (fun c => ¬ (c.key == "id"))
    let idClauses : List (String × List Json) :=
      match idCond with
      | some v => [("id = ?", [v])]
      | none => []
    let jsonClauses : List (String × List Json) :=
      rest.map (fun c =>
        ("json_extract(data, " ++ sqQuote ("$." ++ c.key) ++ ") = ?", [c.value]))
    let all := idClauses ++ jsonClauses
    let whereStatement := String.intercalate " AND " (all.map Prod.fst)
    .ok ("\n            SELECT id, data\n            FROM " ++ tableName ++
      "\n            WHERE " ++ whereStatement ++ "\n        ",
      (all.map Prod.snd).flatten)

/-- Whether `HookLoopTable.search` will emit its `id = ?` clause: the
conditions dict carries an `"id"` entry whose value is not null
(`conditions.pop("id", None)` followed by `if id_condition is not
None`).  Note this depends on the *value* of the id condition, so the
built SQL text is value-dependent to exactly this extent. -/
def idCondPresent (conds : List DictCond) : Bool :=
  match conds.find? (fun c => c.key == "id") with
  | none => false
  | some c => if c.value = Json.null then false else true

/-- `HookLoopTable.search_advanced` (lines 134-182) up to query
execution.  Conditions are checked in order: an operator outside the
allow-list raises ValueError before any query; otherwise each clause is
`f"json_extract(data, '$.{key}') {operator} ?"` — the *key* and the
operator are interpolated into the SQL text, the value is bound. -/
def buildAdvClauses : List AdvCond → Except String (List String × List Json)
  | [] => .ok ([], [])
  | c :: restConds =>
      let op := c.operator?.getD "="
      if op ∈ allowedOperators then
        match buildAdvClauses restConds with
        | .error e => .error e
        | .ok (cs, ps) =>
            .ok (("json_extract(data, " ++ sqQuote ("$." ++ c.key) ++ ") " ++
              op ++ " ?") :: cs, c.value :: ps)
      else
        .error ("Invalid operator: " ++ op)

/-- `HookLoopTable.search_advanced`: ValueError on an empty condition
list or a disallowed operator, else the (SQL text, parameters) pair it
executes. -/
def search_advanced (tableName : String) (conds : List AdvCond) :
    Except String (String × List Json) :=
  if conds.isEmpty then .error "Conditions cannot be empty."
  else
    match buildAdvClauses conds with
    | .error e => .error e
    | .ok (cs, ps) =>
        .ok ("\n            SELECT id, data\n            FROM " ++ tableName ++
          "\n            WHERE " ++ String.intercalate " AND " cs ++ "\n        ", ps)

end HookLoopTable

/-! ## Typed-model layer: `HookLoopModel.bulk_save` (src/hookloopdb/model.py) -/

namespace HookLoopModel

/-- What `bulk_save` reads off each model: `model.id` and the JSON dump
of its other fields (`model.model_dump_json(exclude={"id"})`). -/
structure ModelRec where
  id : Option Int
  data : Json
deriving DecidableEq

/-- The effect of `conn.executemany(query, params)` (model.py lines
104-123): each parameter tuple runs the upsert statement; a null id row
is an auto-assigning insert.  Alongside the final table this returns,
for each statement in submission order, the rowid of the row the
statement actually created or updated — the ground truth of which row
belongs to which submitted model. -/
def execBatchIds : Table → List ModelRec → Table × List Int
  | t, [] => (t, [])
  | t, m :: rest =>
      match m.id with
      | some i =>
          let out := execBatchIds (t.upsertAt i m.data) rest
          (out.1, i :: out.2)
      | none =>
          let ins := t.insertAuto m.data
          let out := execBatchIds ins.1 rest
          (out.1, ins.2 :: out.2)

/-- `SELECT id FROM t ORDER BY id DESC LIMIT n` (model.py lines 127-130):
all ids sorted descending, truncated to `n`. -/
def selectTopDesc (t : Table) (n : Nat) : List Int :=
  (t.ids.mergeSort (fun a b => decide (b ≤ a))).take n

/-- `for model, new_id in zip(new_models, reversed(new_ids)): model.id =
new_id` followed by `return [model.id for model in models]` (lines
131-137): walk the models in submission order; id-less models consume
the reversed id list in order (staying `None` if it runs out), models
with explicit ids keep them. -/
def assignIds : List ModelRec → List Int → List (Option Int)
  | [], _ => []
  | m :: rest, ids =>
      match m.id with
      | some i => some i :: assignIds rest ids
      | none =>
          match ids with
          | [] => none :: assignIds rest []
          | a :: ids' => some a :: assignIds rest ids'

/-- The number of id-less models in the batch (`len(new_models)`). -/
def numNew (ms : List ModelRec) : Nat := (ms.filter (fun m => m.id.isNone)).length

/-- `HookLoopModel.bulk_save` (model.py lines 86-137), success path:
run all upserts, query the top-`N` ids descending (`N` = number of
id-less models), reverse-zip them onto the id-less models, commit, and
return each model's id in submission order. -/
def bulk_save (t : Table) (ms : List ModelRec) : Table × List (Option Int) :=
  let t' := (execBatchIds t ms).1
  let newIds := selectTopDesc t' (numNew ms)
  (t', assignIds ms newIds.reverse)

/-- Outcome of `bulk_save` including the transaction bookkeeping:
`result` is the returned id list or the propagated exception;
`committed` is the durable table state; `pending` is the state of the
still-open, uncommitted transaction, if one is left open. -/
structure TxResult where
  result : Except String (List (Option Int))
  committed : Table
  pending : Option Table

/-- One statement of the batch, as `executemany` runs it. -/
def applyStmt (t : Table) (m : ModelRec) : Table :=
  match m.id with
  | none => (t.insertAuto m.data).1
  | some i => t.upsertAt i m.data

/-- The table state after the first `k` statements of the batch. -/
def applyPrefix (t : Table) (ms : List ModelRec) (k : Nat) : Table :=
  (ms.take k).foldl applyStmt t

/-- `HookLoopModel.bulk_save` with its transaction behaviour made
explicit.  `failAt = some k` (k < batch length) injects a failure at the
k-th statement of `executemany`.  The source wraps the body in
`async with conn.execute("BEGIN TRANSACTION")` — exiting that context
only closes the *cursor*; no ROLLBACK is ever issued — and calls
`await conn.commit()` only after the id assignments, so on failure the
exception propagates with the committed state untouched and the
statements already executed left pending in the open transaction. -/
def bulk_save_txn (t : Table) (ms : List ModelRec) (failAt : Option Nat) : TxResult :=
  match failAt with
  | some k =>
      if k < ms.length then
        { result := .error "statement failed"
          committed := t
          pending := some (applyPrefix t ms k) }
      else
        let out := bulk_save t ms
        { result := .ok out.2, committed := out.1, pending := none }
  | none =>
      let out := bulk_save t ms
      { result := .ok out.2, committed := out.1, pending := none }

end HookLoopModel

instance {ε α : Type} [DecidableEq ε] [DecidableEq α] : DecidableEq (Except ε α) := by
  intro a b
  cases a <;> cases b
  case error.error e e' =>
    exact if h : e = e' then .isTrue (by rw [h]) else .isFalse (by intro hh; cases hh; exact h rfl)
  case ok.ok v v' =>
    exact if h : v = v' then .isTrue (by rw [h]) else .isFalse (by intro hh; cases hh; exact h rfl)
  case error.ok e v => exact .isFalse (by intro hh; cases hh)
  case ok.error v e => exact .isFalse (by intro hh; cases hh)

/-! ## Shared lemmas about the table model -/

/-- A row lookup fails exactly when no row carries the id. -/
theorem Table.findRow_eq_none {t : Table} {i : Int} :
    t.findRow i = none ↔ ∀ r ∈ t.rows, r.1 ≠ i := by
  simp [Table.findRow, List.find?_eq_none]

/-- Deleting an id that no row carries leaves the rows untouched. -/
theorem Table.deleteRow_of_absent {t : Table} {i : Int}
    (h : t.findRow i = none) : t.deleteRow i = t := by
  have h' := Table.findRow_eq_none.mp h
  unfold Table.deleteRow
  have : t.rows.filter (fun r => ¬ (r.1 == i)) = t.rows := by
    rw [List.filter_eq_self]
    intro a ha
    simpa using h' a ha
  rw [this]

/-- After `deleteRow i` no row carries id `i`. -/
theorem Table.findRow_deleteRow (t : Table) (i : Int) :
    (t.deleteRow i).findRow i = none := by
  rw [Table.findRow_eq_none]
  intro r hr
  have := List.of_mem_filter hr
  simpa using this

/-! ## C10: find on absent id, delete semantics -/

/-- C10: in both variants, `find(id)` on an id with no matching row
returns `None` rather than raising (the model's `find` is a total
function into `Option`); `delete(id)` always completes and leaves the
table unchanged when the id is absent; and after `delete(id)` a
subsequent `find(id)` returns `None`. -/
theorem find_delete_absent_semantics (c : DuctTapeDB.SyncConn) (t : Table) (i j : Int) :
    (DuctTapeDB.find c i = none → DuctTapeDB.delete_document c i = c) ∧
    DuctTapeDB.find (DuctTapeDB.delete_document c i) i = none ∧
    (HookLoopTable.find t j = none → HookLoopTable.delete_document t j = t) ∧
    HookLoopTable.find (HookLoopTable.delete_document t j) j = none := by
  refine ⟨fun h => ?_, ?_, fun h => ?_, ?_⟩
  · unfold DuctTapeDB.delete_document
    rw [Table.deleteRow_of_absent h]
  · exact Table.findRow_deleteRow c.table i
  · unfold HookLoopTable.delete_document
    exact Table.deleteRow_of_absent h
  · exact Table.findRow_deleteRow t j

/-- Witness for C10 at a concrete store: a two-row table, looking up and
deleting the absent id 99 and the present id 1. -/
theorem find_delete_absent_semantics_witness :
    (DuctTapeDB.find ⟨⟨[(1, Json.null)], 1⟩, 0⟩ 99 = none →
      DuctTapeDB.delete_document ⟨⟨[(1, Json.null)], 1⟩, 0⟩ 99 = ⟨⟨[(1, Json.null)], 1⟩, 0⟩) ∧
    DuctTapeDB.find (DuctTapeDB.delete_document ⟨⟨[(1, Json.null)], 1⟩, 0⟩ 99) 99 = none ∧
    (HookLoopTable.find ⟨[(1, Json.null)], 1⟩ 1 = none →
      HookLoopTable.delete_document ⟨[(1, Json.null)], 1⟩ 1 = ⟨[(1, Json.null)], 1⟩) ∧
    HookLoopTable.find (HookLoopTable.delete_document ⟨[(1, Json.null)], 1⟩ 1) 1 = none :=
  find_delete_absent_semantics ⟨⟨[(1, Json.null)], 1⟩, 0⟩ ⟨[(1, Json.null)], 1⟩ 99 1

/-! ## C8: connection configuration and fatal WAL check -/

/-- C8: on creation of a fresh connection with WAL requested, `connect`
enables foreign keys and the 5000 ms busy timeout, switches the journal
mode, and — when the engine's reply to the mode switch is not `"wal"` —
raises a RuntimeError whose message reports the observed mode, returning
no connection from that call. -/
theorem connect_wal_configuration (db : DuctTapeDB.DB) (reply : String)
    (hw : db.wal = true) :
    (reply = "wal" →
      (DuctTapeDB.connect db none reply).2 =
        .ok { path := db.path, foreignKeys := true, busyTimeout := 5000,
              journalMode := "wal" }) ∧
    (reply ≠ "wal" →
      (DuctTapeDB.connect db none reply).2 =
        .error ("Failed to enable WAL mode. Current mode: " ++ reply) ∧
      ∀ c, (DuctTapeDB.connect db none reply).2 ≠ .ok c) := by
  constructor
  · intro hm
    simp [DuctTapeDB.connect, hw, hm]
  · intro hm
    constructor
    · simp [DuctTapeDB.connect, hw, hm]
    · intro c
      simp [DuctTapeDB.connect, hw, hm]

/-- Witness for C8: a WAL-requesting instance whose engine replies
`"memory"` (failure branch) and one that replies `"wal"` (success). -/
theorem connect_wal_configuration_witness :
    ((("memory" : String) = "wal" →
      (DuctTapeDB.connect ⟨"app.db", "documents", true⟩ none "memory").2 =
        .ok { path := "app.db", foreignKeys := true, busyTimeout := 5000,
              journalMode := "wal" }) ∧
    (("memory" : String) ≠ "wal" →
      (DuctTapeDB.connect ⟨"app.db", "documents", true⟩ none "memory").2 =
        .error ("Failed to enable WAL mode. Current mode: " ++ "memory") ∧
      ∀ c, (DuctTapeDB.connect ⟨"app.db", "documents", true⟩ none "memory").2 ≠ .ok c)) ∧
    ((("wal" : String) = "wal" →
      (DuctTapeDB.connect ⟨"app.db", "documents", true⟩ none "wal").2 =
        .ok { path := "app.db", foreignKeys := true, busyTimeout := 5000,
              journalMode := "wal" }) ∧
    (("wal" : String) ≠ "wal" →
      (DuctTapeDB.connect ⟨"app.db", "documents", true⟩ none "wal").2 =
        .error ("Failed to enable WAL mode. Current mode: " ++ "wal") ∧
      ∀ c, (DuctTapeDB.connect ⟨"app.db", "documents", true⟩ none "wal").2 ≠ .ok c)) :=
  ⟨connect_wal_configuration ⟨"app.db", "documents", true⟩ "memory" rfl,
   connect_wal_configuration ⟨"app.db", "documents", true⟩ "wal" rfl⟩

/-! ## C3: one thread-local connection slot shared across instances -/

/-- C3: the class-level thread-local slot is shared by all instances in
a thread.  After instance `A` connects (filling the empty slot),
`connect` on any other instance `B` — whatever its path or table —
returns `A`'s existing connection (opened to `A`'s path) without opening
one to `B`'s location, and `close` on either instance empties the one
shared slot.  (Hypothesis: `A` connects without WAL trouble, i.e. WAL
is off or the engine confirms the switch.) -/
theorem connect_slot_shared_across_instances (A B : DuctTapeDB.DB)
    (reply reply' : String) (hok : A.wal = false ∨ reply = "wal") :
    ∃ cA, (DuctTapeDB.connect A none reply).2 = .ok cA ∧
      cA.path = A.path ∧
      DuctTapeDB.connect B (DuctTapeDB.connect A none reply).1 reply' =
        ((DuctTapeDB.connect A none reply).1, .ok cA) ∧
      DuctTapeDB.close (DuctTapeDB.connect A none reply).1 = none ∧
      DuctTapeDB.close (some cA) = none := by
  rcases hok with h | h
  · refine ⟨DuctTapeDB.SqlConn.mk A.path true 5000 "delete", ?_, rfl, ?_, rfl, rfl⟩
    · simp [DuctTapeDB.connect, h]
    · simp [DuctTapeDB.connect, h]
  · by_cases hw : A.wal = true
    · refine ⟨DuctTapeDB.SqlConn.mk A.path true 5000 reply, ?_, rfl, ?_, rfl, rfl⟩
      · simp [DuctTapeDB.connect, hw, h]
      · simp [DuctTapeDB.connect, hw, h]
    · refine ⟨DuctTapeDB.SqlConn.mk A.path true 5000 "delete", ?_, rfl, ?_, rfl, rfl⟩
      · simp [DuctTapeDB.connect, hw]
      · simp [DuctTapeDB.connect, hw]

/-- Witness for C3: instance `A` on `a.db`, instance `B` on a different
path and table; `B.connect` returns `A`'s connection. -/
theorem connect_slot_shared_across_instances_witness :
    ∃ cA, (DuctTapeDB.connect ⟨"a.db", "ta", false⟩ none "x").2 = .ok cA ∧
      cA.path = (DuctTapeDB.DB.mk "a.db" "ta" false).path ∧
      DuctTapeDB.connect ⟨"b.db", "tb", false⟩
          (DuctTapeDB.connect ⟨"a.db", "ta", false⟩ none "x").1 "y" =
        ((DuctTapeDB.connect ⟨"a.db", "ta", false⟩ none "x").1, .ok cA) ∧
      DuctTapeDB.close (DuctTapeDB.connect ⟨"a.db", "ta", false⟩ none "x").1 = none ∧
      DuctTapeDB.close (some cA) = none :=
  connect_slot_shared_across_instances ⟨"a.db", "ta", false⟩ ⟨"b.db", "tb", false⟩
    "x" "y" (Or.inl rfl)

/-! ## C9: the operator allow-list gate of `search_advanced` -/

/-- If every operator (after the `"="` default) is allowed, clause
construction succeeds. -/
theorem buildAdvClauses_ok (conds : List HookLoopTable.AdvCond)
    (h : ∀ c ∈ conds, (c.operator?.getD "=") ∈ HookLoopTable.allowedOperators) :
    ∃ r, HookLoopTable.buildAdvClauses conds = .ok r := by
  induction conds with
  | nil => exact ⟨([], []), rfl⟩
  | cons c rest ih =>
      obtain ⟨r, hr⟩ := ih (fun x hx => h x (List.mem_cons_of_mem c hx))
      obtain ⟨cs, ps⟩ := r
      refine ⟨(("json_extract(data, " ++ sqQuote ("$." ++ c.key) ++ ") " ++
        (c.operator?.getD "=") ++ " ?") :: cs, c.value :: ps), ?_⟩
      simp [HookLoopTable.buildAdvClauses, h c (List.mem_cons_self c rest), hr]

/-- If some operator is disallowed, clause construction fails. -/
theorem buildAdvClauses_error (conds : List HookLoopTable.AdvCond)
    (h : ∃ c ∈ conds, (c.operator?.getD "=") ∉ HookLoopTable.allowedOperators) :
    ∃ e, HookLoopTable.buildAdvClauses conds = .error e := by
  induction conds with
  | nil => simp at h
  | cons c rest ih =>
      by_cases hop : (c.operator?.getD "=") ∈ HookLoopTable.allowedOperators
      · have hrest : ∃ x ∈ rest, (x.operator?.getD "=") ∉ HookLoopTable.allowedOperators := by
          obtain ⟨x, hx, hbad⟩ := h
          rcases List.mem_cons.mp hx with rfl | hx'
          · exact absurd hop hbad
          · exact ⟨x, hx', hbad⟩
        obtain ⟨e, he⟩ := ih hrest
        exact ⟨e, by simp [HookLoopTable.buildAdvClauses, hop, he]⟩
      · exact ⟨"Invalid operator: " ++ (c.operator?.getD "="),
          by simp [HookLoopTable.buildAdvClauses, hop]⟩

/-- C9: `search_advanced` raises a ValueError before issuing any query
whenever some condition's operator is outside the allow-list
`{=, !=, <, >, <=, >=}` (an `.error` result means no SQL reaches the
connection), and the operator check never rejects a (nonempty) list all
of whose operators are allowed — the call builds and executes a query. -/
theorem search_advanced_operator_allowlist (tableName : String)
    (conds : List HookLoopTable.AdvCond)
    (hne : conds ≠ []) :
    ((∃ c ∈ conds, (c.operator?.getD "=") ∉ HookLoopTable.allowedOperators) →
      ∃ e, HookLoopTable.search_advanced tableName conds = .error e) ∧
    ((∀ c ∈ conds, (c.operator?.getD "=") ∈ HookLoopTable.allowedOperators) →
      ∃ r, HookLoopTable.search_advanced tableName conds = .ok r) := by
  have hne' : ¬ conds.isEmpty := by simpa using hne
  constructor
  · intro h
    obtain ⟨e, he⟩ := buildAdvClauses_error conds h
    exact ⟨e, by simp [HookLoopTable.search_advanced, hne', he]⟩
  · intro h
    obtain ⟨r, hr⟩ := buildAdvClauses_ok conds h
    obtain ⟨cs, ps⟩ := r
    refine ⟨("\n            SELECT id, data\n            FROM " ++ tableName ++
      "\n            WHERE " ++ String.intercalate " AND " cs ++ "\n        ", ps), ?_⟩
    simp [HookLoopTable.search_advanced, hne', hr]

/-- Witness for C9: a single-condition list with the disallowed operator
`"LIKE"` errors out; the same with `">="` succeeds. -/
theorem search_advanced_operator_allowlist_witness :
    ([(⟨"k", Json.int 3, some "LIKE"⟩ : HookLoopTable.AdvCond)] ≠ [] ∧
      ((∃ c ∈ [(⟨"k", Json.int 3, some "LIKE"⟩ : HookLoopTable.AdvCond)],
          (c.operator?.getD "=") ∉ HookLoopTable.allowedOperators) →
        ∃ e, HookLoopTable.search_advanced "items"
          [(⟨"k", Json.int 3, some "LIKE"⟩ : HookLoopTable.AdvCond)] = .error e)) ∧
    ([(⟨"k", Json.int 3, some ">="⟩ : HookLoopTable.AdvCond)] ≠ [] ∧
      ((∀ c ∈ [(⟨"k", Json.int 3, some ">="⟩ : HookLoopTable.AdvCond)],
          (c.operator?.getD "=") ∈ HookLoopTable.allowedOperators) →
        ∃ r, HookLoopTable.search_advanced "items"
          [(⟨"k", Json.int 3, some ">="⟩ : HookLoopTable.AdvCond)] = .ok r)) :=
  ⟨⟨by decide,
    (search_advanced_operator_allowlist "items"
      [⟨"k", Json.int 3, some "LIKE"⟩] (by decide)).1⟩,
   ⟨by decide,
    (search_advanced_operator_allowlist "items"
      [⟨"k", Json.int 3, some ">="⟩] (by decide)).2⟩⟩

/-! ## C6: synchronous rejection of malformed requests -/

/-- C6 (amended): an unknown aggregate operator, an empty JSON key, both
raw and structured predicates supplied together, and an empty condition
set on either search all produce a ValueError-class `.error` before any
query is built or executed (so the database is untouched); but an empty
or omitted predicate set on `aggregate` with `where_raw` omitted is NOT
rejected — the call executes an unfiltered aggregate query. -/
theorem malformed_request_validation (tableName op key : String)
    (wv : Option (List DuctTapeDB.AggCond)) (wr : Option String) :
    (DuctTapeDB.pyUpper op ∉ DuctTapeDB.validOperations →
      DuctTapeDB.aggregate tableName op key wv wr =
        .error ("Invalid SQL aggregate function: " ++ op)) ∧
    (DuctTapeDB.pyUpper op ∈ DuctTapeDB.validOperations → key = "" →
      DuctTapeDB.aggregate tableName op key wv wr =
        .error "JSON key cannot be empty") ∧
    (DuctTapeDB.pyUpper op ∈ DuctTapeDB.validOperations → key ≠ "" →
      DuctTapeDB.rawTruthy wr = true → DuctTapeDB.valuesTruthy wv = true →
      DuctTapeDB.aggregate tableName op key wv wr =
        .error "Specify either \x27where_values\x27 or \x27where_raw\x27, not both.") ∧
    (HookLoopTable.search tableName [] = .error "Conditions cannot be empty.") ∧
    (HookLoopTable.search_advanced tableName [] = .error "Conditions cannot be empty.") ∧
    (DuctTapeDB.pyUpper op ∈ DuctTapeDB.validOperations → key ≠ "" →
      DuctTapeDB.aggregate tableName op key none none =
        .ok ("SELECT " ++ op ++ "(json_extract(data, " ++ sqQuote "$." ++
          " || ?)) FROM " ++ tableName, [Json.str key])) := by
  refine ⟨fun h1 => ?_, fun h1 h2 => ?_, fun h1 h2 h3 h4 => ?_, ?_, ?_, fun h1 h2 => ?_⟩
  · simp [DuctTapeDB.aggregate, h1]
  · simp [DuctTapeDB.aggregate, h1, h2]
  · simp [DuctTapeDB.aggregate, h1, h2, h3, h4]
  · rfl
  · rfl
  · simp [DuctTapeDB.aggregate, h1, h2, DuctTapeDB.rawTruthy, DuctTapeDB.valuesTruthy]

/-- Counterexample for C6 as stated: `aggregate` called with the raw
predicate omitted and no structured predicates does NOT raise a
usage error — it returns (and executes) an unfiltered aggregate query.
(The repository's own test `test_aggregate_safe` relies on this:
`db.aggregate("SUM", "hp")` must return 59.) -/
theorem aggregate_empty_predicates_not_rejected :
    DuctTapeDB.aggregate "documents" "COUNT" "hp" none none =
      .ok ("SELECT COUNT(json_extract(data, " ++ sqQuote "$." ++
        " || ?)) FROM documents", [Json.str "hp"]) := by
  decide

/-- Witness for C6 at concrete malformed calls: unknown operator
`"TOTAL"`, empty key, raw and structured predicates together, empty
search conditions — each rejected with the corresponding error — and the
legal unfiltered lowercase `"count"` aggregate. -/
theorem malformed_request_validation_witness :
    DuctTapeDB.aggregate "documents" "TOTAL" "hp" none none =
      .error ("Invalid SQL aggregate function: " ++ "TOTAL") ∧
    DuctTapeDB.aggregate "documents" "SUM" "" none none =
      .error "JSON key cannot be empty" ∧
    DuctTapeDB.aggregate "documents" "SUM" "hp"
        (some [⟨"hp", ">", Json.int 1⟩]) (some "1=1") =
      .error "Specify either \x27where_values\x27 or \x27where_raw\x27, not both." ∧
    HookLoopTable.search "documents" [] = .error "Conditions cannot be empty." ∧
    HookLoopTable.search_advanced "documents" [] =
      .error "Conditions cannot be empty." ∧
    DuctTapeDB.aggregate "documents" "count" "hp" none none =
      .ok ("SELECT " ++ "count" ++ "(json_extract(data, " ++ sqQuote "$." ++
        " || ?)) FROM " ++ "documents", [Json.str "hp"]) :=
  ⟨(malformed_request_validation "documents" "TOTAL" "hp" none none).1
      (by decide),
   (malformed_request_validation "documents" "SUM" "" none none).2.1
      (by decide) rfl,
   (malformed_request_validation "documents" "SUM" "hp"
        (some [⟨"hp", ">", Json.int 1⟩]) (some "1=1")).2.2.1
      (by decide) (by decide) (by decide) (by decide),
   (malformed_request_validation "documents" "SUM" "hp" none none).2.2.2.1,
   (malformed_request_validation "documents" "SUM" "hp" none none).2.2.2.2.1,
   (malformed_request_validation "documents" "count" "hp" none none).2.2.2.2.2
      (by decide) (by decide)⟩

/-! ## C2: what enters the SQL text vs. what is bound -/

/-- The SQL clause texts produced by `buildAdvClauses` (and whether it
errors) are determined by the conditions' keys and operators alone —
values never enter the text. -/
theorem buildAdvClauses_text_congr :
    ∀ (c1 c2 : List HookLoopTable.AdvCond),
      c1.map (fun c => (c.key, c.operator?)) = c2.map (fun c => (c.key, c.operator?)) →
      (HookLoopTable.buildAdvClauses c1).map Prod.fst =
        (HookLoopTable.buildAdvClauses c2).map Prod.fst
  | [], [], _ => rfl
  | [], _ :: _, h => by simp at h
  | _ :: _, [], h => by simp at h
  | x :: xs, y :: ys, h => by
      simp only [List.map_cons, List.cons.injEq, Prod.mk.injEq] at h
      obtain ⟨⟨hk, hop⟩, hrest⟩ := h
      have ih := buildAdvClauses_text_congr xs ys hrest
      simp only [HookLoopTable.buildAdvClauses, hk, hop]
      by_cases hallow : (y.operator?.getD "=") ∈ HookLoopTable.allowedOperators
      · simp only [if_pos hallow]
        cases hcx : HookLoopTable.buildAdvClauses xs with
        | error e =>
            cases hcy : HookLoopTable.buildAdvClauses ys with
            | error e' =>
                rw [hcx, hcy] at ih
                simp only [Except.map] at ih
                cases ih
                rfl
            | ok r' => rw [hcx, hcy] at ih; simp [Except.map] at ih
        | ok r =>
            cases hcy : HookLoopTable.buildAdvClauses ys with
            | error e' => rw [hcx, hcy] at ih; simp [Except.map] at ih
            | ok r' =>
                rw [hcx, hcy] at ih
                obtain ⟨cs, ps⟩ := r
                obtain ⟨cs', ps'⟩ := r'
                simp only [Except.map] at ih ⊢
                cases ih
                rfl
      · simp [if_neg hallow]

/-- On success, the bound parameters of `buildAdvClauses` are exactly
the conditions' values, in order. -/
theorem buildAdvClauses_params :
    ∀ (conds : List HookLoopTable.AdvCond) (q : List String × List Json),
      HookLoopTable.buildAdvClauses conds = .ok q →
      q.2 = conds.map (fun c => c.value)
  | [], q, h => by
      simp only [HookLoopTable.buildAdvClauses] at h
      cases h
      rfl
  | c :: rest, q, h => by
      simp only [HookLoopTable.buildAdvClauses] at h
      by_cases hallow : (c.operator?.getD "=") ∈ HookLoopTable.allowedOperators
      · rw [if_pos hallow] at h
        cases hrec : HookLoopTable.buildAdvClauses rest with
        | error e => rw [hrec] at h; cases h
        | ok r =>
            rw [hrec] at h
            obtain ⟨cs, ps⟩ := r
            cases h
            have := buildAdvClauses_params rest (cs, ps) hrec
            simp only [List.map_cons]
            rw [← this]
      · rw [if_neg hallow] at h
        cases h

/-- The json-key clause texts of `HookLoopTable.search` are the
non-`id` field names, each pasted into the fixed clause template. -/
theorem dict_clauses_fst (d : List HookLoopTable.DictCond) :
    List.map (Prod.fst ∘ fun c : HookLoopTable.DictCond =>
        ("json_extract(data, " ++ sqQuote ("$." ++ c.key) ++ ") = ?",
          ([c.value] : List Json)))
      (List.filter (fun c => ¬ (c.key == "id")) d) =
    ((d.map (fun c => c.key)).filter (fun k => ¬ (k == "id"))).map
      (fun k => "json_extract(data, " ++ sqQuote ("$." ++ k) ++ ") = ?") := by
  induction d with
  | nil => rfl
  | cons c rest ih =>
      by_cases h : c.key = "id"
      · simpa [List.filter_cons, h] using ih
      · simpa [List.filter_cons, h] using ih

/-- The json-key clause parameters of `HookLoopTable.search` are the
non-`id` condition values, in submission order. -/
theorem dict_clauses_snd (d : List HookLoopTable.DictCond) :
    (List.map (Prod.snd ∘ fun c : HookLoopTable.DictCond =>
        ("json_extract(data, " ++ sqQuote ("$." ++ c.key) ++ ") = ?",
          ([c.value] : List Json)))
      (List.filter (fun c => ¬ (c.key == "id")) d)).flatten =
    (d.filter (fun c => ¬ (c.key == "id"))).map (fun c => c.value) := by
  induction d with
  | nil => rfl
  | cons c rest ih =>
      by_cases h : c.key = "id"
      · simpa [List.filter_cons, h] using ih
      · simpa [List.filter_cons, h] using ih

/-- Closed form of `HookLoopTable.search` on a nonempty conditions dict:
the SQL text is built from the non-`id` field names plus — exactly when
a non-null `id` condition is present — a leading `id = ?` clause, and
the bound parameters are the non-null `id` value (if any) moved to the
front, followed by the non-`id` values in submission order.  In
particular no condition value is ever interpolated into the SQL text,
but a null `id` value is dropped from the parameters and changes the
text by suppressing the `id = ?` clause. -/
theorem search_ok_form (tn : String) (d : List HookLoopTable.DictCond)
    (hne : ¬ d.isEmpty = true) :
    HookLoopTable.search tn d = .ok (
      "\n            SELECT id, data\n            FROM " ++ tn ++
        "\n            WHERE " ++
        String.intercalate " AND "
          ((if HookLoopTable.idCondPresent d then ["id = ?"] else []) ++
            ((d.map (fun c => c.key)).filter (fun k => ¬ (k == "id"))).map
              (fun k => "json_extract(data, " ++ sqQuote ("$." ++ k) ++ ") = ?")) ++
        "\n        ",
      (match d.find? (fun c => c.key == "id") with
       | none => []
       | some c => if c.value = Json.null then [] else [c.value]) ++
        (d.filter (fun c => ¬ (c.key == "id"))).map (fun c => c.value)) := by
  unfold HookLoopTable.search
  rw [if_neg hne]
  cases hfind : d.find? (fun c => c.key == "id") with
  | none =>
      simp only [hfind, HookLoopTable.idCondPresent, List.map_append, List.map_map,
        List.flatten_append]
      rw [dict_clauses_fst d, dict_clauses_snd d]
      simp
  | some c =>
      by_cases hnull : c.value = Json.null
      · simp only [hfind, HookLoopTable.idCondPresent, hnull, if_pos rfl,
          List.map_append, List.map_map, List.flatten_append]
        rw [dict_clauses_fst d, dict_clauses_snd d]
        simp
      · simp only [hfind, HookLoopTable.idCondPresent, if_neg hnull,
          List.map_append, List.map_map, List.flatten_append]
        rw [dict_clauses_fst d, dict_clauses_snd d]
        simp

/-- C2 (amended): the synchronous key-value search binds both the field
name and the value, so its SQL text is one fixed string for a given
table.  `search_advanced` binds every value as a parameter — its SQL
text is determined by the condition keys and operators alone, and its
parameter list is exactly the submitted values in order — but
interpolates caller-supplied field names into the SQL text, so calls
differing only in field names build different SQL.  The async dict
`search` likewise interpolates field names and never interpolates a
value: its SQL text is determined by the field names plus whether a
non-null `id` condition is present (a null `id` value suppresses the
`id = ?` clause), and its bound parameters are the non-null `id` value,
if any, moved to the front, followed by the non-`id` values in
submission order. -/
theorem search_parameter_binding (tableName k1 k2 : String) (v1 v2 : Json)
    (conds1 conds2 : List HookLoopTable.AdvCond)
    (dconds dconds2 : List HookLoopTable.DictCond) :
    ((DuctTapeDB.searchCall tableName k1 v1).1 =
        (DuctTapeDB.searchCall tableName k2 v2).1) ∧
    ((DuctTapeDB.searchCall tableName k1 v1).2 = [Json.str k1, v1]) ∧
    (conds1.map (fun c => (c.key, c.operator?)) =
        conds2.map (fun c => (c.key, c.operator?)) →
      (HookLoopTable.search_advanced tableName conds1).map Prod.fst =
        (HookLoopTable.search_advanced tableName conds2).map Prod.fst) ∧
    (∀ q, HookLoopTable.search_advanced tableName conds1 = .ok q →
      q.2 = conds1.map (fun c => c.value)) ∧
    (∀ q, HookLoopTable.search tableName dconds = .ok q →
      q.2 = (match dconds.find? (fun c => c.key == "id") with
             | none => []
             | some c => if c.value = Json.null then [] else [c.value]) ++
        (dconds.filter (fun c => ¬ (c.key == "id"))).map (fun c => c.value)) ∧
    (dconds.map (fun c => c.key) = dconds2.map (fun c => c.key) →
      HookLoopTable.idCondPresent dconds = HookLoopTable.idCondPresent dconds2 →
      (HookLoopTable.search tableName dconds).map Prod.fst =
        (HookLoopTable.search tableName dconds2).map Prod.fst) := by
  refine ⟨rfl, rfl, fun hproj => ?_, fun q hq => ?_, fun q hq => ?_,
    fun hk hid => ?_⟩
  · have hlen : conds1.isEmpty = conds2.isEmpty := by
      have : conds1.length = conds2.length := by
        have := congrArg List.length hproj
        simpa using this
      cases conds1 <;> cases conds2 <;> simp_all
    unfold HookLoopTable.search_advanced
    by_cases he : conds2.isEmpty
    · simp [he, hlen.trans he, Except.map]
    · have he1 : ¬ conds1.isEmpty = true := by rw [hlen]; exact he
      simp only [he, he1, if_false]
      have ih := buildAdvClauses_text_congr conds1 conds2 hproj
      cases hcx : HookLoopTable.buildAdvClauses conds1 with
      | error e =>
          cases hcy : HookLoopTable.buildAdvClauses conds2 with
          | error e' =>
              rw [hcx, hcy] at ih
              simp only [Except.map] at ih
              cases ih
              rfl
          | ok r' => rw [hcx, hcy] at ih; simp [Except.map] at ih
      | ok r =>
          cases hcy : HookLoopTable.buildAdvClauses conds2 with
          | error e' => rw [hcx, hcy] at ih; simp [Except.map] at ih
          | ok r' =>
              rw [hcx, hcy] at ih
              obtain ⟨cs, ps⟩ := r
              obtain ⟨cs', ps'⟩ := r'
              simp only [Except.map] at ih ⊢
              cases ih
              rfl
  · unfold HookLoopTable.search_advanced at hq
    by_cases he : conds1.isEmpty
    · rw [if_pos he] at hq; cases hq
    · rw [if_neg he] at hq
      cases hcx : HookLoopTable.buildAdvClauses conds1 with
      | error e => rw [hcx] at hq; cases hq
      | ok r =>
          rw [hcx] at hq
          obtain ⟨cs, ps⟩ := r
          cases hq
          exact buildAdvClauses_params conds1 (cs, ps) hcx
  · by_cases he : dconds.isEmpty
    · unfold HookLoopTable.search at hq
      rw [if_pos he] at hq
      cases hq
    · rw [search_ok_form tableName dconds he] at hq
      cases hq
      rfl
  · have hempty : dconds.isEmpty = dconds2.isEmpty := by
      cases dconds <;> cases dconds2 <;> simp_all
    by_cases he : dconds2.isEmpty
    · have he1 : dconds.isEmpty = true := hempty.trans he
      unfold HookLoopTable.search
      rw [if_pos he1, if_pos he]
    · have he1 : ¬ dconds.isEmpty = true := by rw [hempty]; exact he
      rw [search_ok_form tableName dconds he1,
        search_ok_form tableName dconds2 he]
      simp only [Except.map]
      rw [hk, hid]

/-- Witness for C2's amended statement at concrete calls, including two
dict searches with the same keys whose `id` values 5 and 7 are both
non-null (so the id clause is present in both texts). -/
theorem search_parameter_binding_witness :
    ((DuctTapeDB.searchCall "documents" "name" (Json.str "slime")).1 =
        (DuctTapeDB.searchCall "documents" "level" (Json.int 9)).1) ∧
    ((DuctTapeDB.searchCall "documents" "name" (Json.str "slime")).2 =
        [Json.str "name", Json.str "slime"]) ∧
    ((([⟨"hp", Json.int 1, some "<"⟩] : List HookLoopTable.AdvCond).map
          (fun c => (c.key, c.operator?)) =
        ([⟨"hp", Json.int 2, some "<"⟩] : List HookLoopTable.AdvCond).map
          (fun c => (c.key, c.operator?))) →
      (HookLoopTable.search_advanced "documents" [⟨"hp", Json.int 1, some "<"⟩]).map
          Prod.fst =
        (HookLoopTable.search_advanced "documents" [⟨"hp", Json.int 2, some "<"⟩]).map
          Prod.fst) ∧
    (∀ q, HookLoopTable.search_advanced "documents"
          [(⟨"hp", Json.int 1, some "<"⟩ : HookLoopTable.AdvCond)] = .ok q →
      q.2 = ([⟨"hp", Json.int 1, some "<"⟩] : List HookLoopTable.AdvCond).map
        (fun c => c.value)) ∧
    (∀ q, HookLoopTable.search "documents"
          ([⟨"id", Json.int 5⟩, ⟨"level", Json.int 9⟩] :
            List HookLoopTable.DictCond) = .ok q →
      q.2 = (match ([⟨"id", Json.int 5⟩, ⟨"level", Json.int 9⟩] :
              List HookLoopTable.DictCond).find? (fun c => c.key == "id") with
             | none => []
             | some c => if c.value = Json.null then [] else [c.value]) ++
        (([⟨"id", Json.int 5⟩, ⟨"level", Json.int 9⟩] :
            List HookLoopTable.DictCond).filter
          (fun c => ¬ (c.key == "id"))).map (fun c => c.value)) ∧
    ((([⟨"id", Json.int 5⟩, ⟨"level", Json.int 9⟩] :
          List HookLoopTable.DictCond).map (fun c => c.key) =
        ([⟨"id", Json.int 7⟩, ⟨"level", Json.int 3⟩] :
          List HookLoopTable.DictCond).map (fun c => c.key)) →
      HookLoopTable.idCondPresent [⟨"id", Json.int 5⟩, ⟨"level", Json.int 9⟩] =
        HookLoopTable.idCondPresent [⟨"id", Json.int 7⟩, ⟨"level", Json.int 3⟩] →
      (HookLoopTable.search "documents"
          ([⟨"id", Json.int 5⟩, ⟨"level", Json.int 9⟩] :
            List HookLoopTable.DictCond)).map Prod.fst =
        (HookLoopTable.search "documents"
          ([⟨"id", Json.int 7⟩, ⟨"level", Json.int 3⟩] :
            List HookLoopTable.DictCond)).map Prod.fst) :=
  search_parameter_binding "documents" "name" "level" (Json.str "slime") (Json.int 9)
    [⟨"hp", Json.int 1, some "<"⟩] [⟨"hp", Json.int 2, some "<"⟩]
    [⟨"id", Json.int 5⟩, ⟨"level", Json.int 9⟩]
    [⟨"id", Json.int 7⟩, ⟨"level", Json.int 3⟩]

/-- Counterexample for C2 as stated: two `search_advanced` calls
differing only in the field name (`"a"` vs `"b"`) construct different
SQL texts — the field name is interpolated into the query, not bound. -/
theorem search_advanced_field_name_in_sql_text :
    (HookLoopTable.search_advanced "items"
        [⟨"a", Json.null, some "="⟩]).map Prod.fst ≠
      (HookLoopTable.search_advanced "items"
        [⟨"b", Json.null, some "="⟩]).map Prod.fst := by
  decide

/-! ## C7 / C5: upsert id semantics and round-trips -/

/-- If no existing row carries id `i`, looking `i` up after appending
`(i, d)` finds the appended row. -/
theorem find?_append_fresh (rows : List (Int × Json)) (i : Int) (d : Json)
    (h : ∀ r ∈ rows, r.1 ≠ i) :
    (rows ++ [(i, d)]).find? (fun r => r.1 == i) = some (i, d) := by
  induction rows with
  | nil => simp
  | cons r rs ih =>
      have hr : ¬ (r.1 == i) = true := by simpa using h r (by simp)
      rw [List.cons_append,
        @List.find?_cons_of_neg (Int × Json) (fun x => x.1 == i) r (rs ++ [(i, d)]) hr]
      exact ih (fun x hx => h x (List.mem_cons_of_mem r hx))

/-- Looking up the freshly generated id after an auto-assigning insert
finds the inserted row (the sequence invariant guarantees the id is new). -/
theorem findRow_insertAuto (t : Table) (d : Json) (hwf : t.WF) :
    (t.insertAuto d).1.findRow (t.seq + 1) = some (t.seq + 1, d) := by
  unfold Table.insertAuto Table.findRow
  refine find?_append_fresh t.rows (t.seq + 1) d (fun r hr => ?_)
  have := hwf r.1 (List.mem_map_of_mem Prod.fst hr)
  omega

/-- If some row carries id `i`, looking `i` up after the in-place update
finds the updated row. -/
theorem find?_updateData (rows : List (Int × Json)) (i : Int) (d : Json)
    (h : rows.any (fun r => r.1 == i) = true) :
    (updateData rows i d).find? (fun r => r.1 == i) = some (i, d) := by
  induction rows with
  | nil => simp at h
  | cons r rs ih =>
      by_cases hr : (r.1 == i) = true
      · simp only [updateData, List.map_cons, if_pos hr]
        simp
      · simp only [updateData, List.map_cons, if_neg hr]
        have hany : rs.any (fun r => r.1 == i) = true := by
          rcases List.any_eq_true.mp h with ⟨x, hx, hpx⟩
          rcases List.mem_cons.mp hx with rfl | hx'
          · exact absurd hpx hr
          · exact List.any_eq_true.mpr ⟨x, hx', hpx⟩
        rw [@List.find?_cons_of_neg (Int × Json) (fun x => x.1 == i) r
          (List.map (fun r => if (r.1 == i) = true then (i, d) else r) rs) hr]
        exact ih hany

/-- After `upsertAt i d`, looking up id `i` yields the new data. -/
theorem findRow_upsertAt (t : Table) (i : Int) (d : Json) :
    (t.upsertAt i d).findRow i = some (i, d) := by
  unfold Table.upsertAt
  by_cases h : t.hasId i
  · rw [if_pos h]
    exact find?_updateData t.rows i d h
  · rw [if_neg h]
    unfold Table.findRow
    refine find?_append_fresh t.rows i d (fun r hr => ?_)
    intro hri
    exact h (List.any_eq_true.mpr ⟨r, hr, by simp [hri]⟩)

/-- C7 (amended): a null-id upsert inserts a new row and returns that
row's engine-generated id, in both variants; a non-null id is returned
as given by the async variant for every id, and by the synchronous
variant for every id except 0 — for id 0 the Python expression
`id_value or cursor.lastrowid` returns `cursor.lastrowid` instead. -/
theorem upsert_id_semantics (t : Table) (dta : Json) (i : Int)
    (c : DuctTapeDB.SyncConn) (doc : Json) :
    ((HookLoopTable.upsert t ⟨none, dta⟩).2 = t.seq + 1 ∧
      (HookLoopTable.upsert t ⟨none, dta⟩).1.rows =
        t.rows ++ [(t.seq + 1, dta)]) ∧
    ((HookLoopTable.upsert t ⟨some i, dta⟩).2 = i) ∧
    (DuctTapeDB.getId doc = none →
      (DuctTapeDB.upsert_document c doc).2 = c.table.seq + 1 ∧
      (DuctTapeDB.upsert_document c doc).1.table.rows =
        c.table.rows ++ [(c.table.seq + 1, doc)]) ∧
    (DuctTapeDB.getId doc = some i → i ≠ 0 →
      (DuctTapeDB.upsert_document c doc).2 = i) := by
  refine ⟨⟨rfl, rfl⟩, rfl, fun h => ?_, fun h hz => ?_⟩
  · simp [DuctTapeDB.upsert_document, h, Table.insertAuto]
  · simp [DuctTapeDB.upsert_document, h, hz]

/-- Witness for C7 at a concrete table and connection: a null-id insert
into a table with seq 3 and an explicit id 7 upsert. -/
theorem upsert_id_semantics_witness :
    ((HookLoopTable.upsert ⟨[(1, Json.null)], 3⟩ ⟨none, Json.bool true⟩).2 = 3 + 1 ∧
      (HookLoopTable.upsert ⟨[(1, Json.null)], 3⟩ ⟨none, Json.bool true⟩).1.rows =
        [(1, Json.null)] ++ [(3 + 1, Json.bool true)]) ∧
    ((HookLoopTable.upsert ⟨[(1, Json.null)], 3⟩ ⟨some 7, Json.bool true⟩).2 = 7) ∧
    (DuctTapeDB.getId (Json.obj .nil) = none →
      (DuctTapeDB.upsert_document ⟨⟨[(1, Json.null)], 3⟩, 0⟩ (Json.obj .nil)).2 = 3 + 1 ∧
      (DuctTapeDB.upsert_document ⟨⟨[(1, Json.null)], 3⟩, 0⟩ (Json.obj .nil)).1.table.rows =
        [(1, Json.null)] ++ [(3 + 1, Json.obj .nil)]) ∧
    (DuctTapeDB.getId (Json.obj .nil) = some 7 → (7 : Int) ≠ 0 →
      (DuctTapeDB.upsert_document ⟨⟨[(1, Json.null)], 3⟩, 0⟩ (Json.obj .nil)).2 = 7) :=
  upsert_id_semantics ⟨[(1, Json.null)], 3⟩ (Json.bool true) 7
    ⟨⟨[(1, Json.null)], 3⟩, 0⟩ (Json.obj .nil)

/-- Counterexample for C7 as stated: upserting a document with id 0
through the synchronous variant does not return the given id.  Starting
from a fresh connection: insert `{"id": 0}` (row 0), insert `{"id": 5}`
(row 5, connection lastrowid now 5), then upsert `{"id": 0, "v": 2}` —
the row 0 update path leaves lastrowid at 5 and `id_value or
cursor.lastrowid` returns 5, not 0. -/
theorem sync_upsert_id_zero_wrong_return :
    (DuctTapeDB.upsert_document
      (DuctTapeDB.upsert_document
        (DuctTapeDB.upsert_document ⟨⟨[], 0⟩, 0⟩
          (Json.obj (.cons "id" (.int 0) .nil))).1
        (Json.obj (.cons "id" (.int 5) .nil))).1
      (Json.obj (.cons "id" (.int 0) (.cons "v" (.int 2) .nil)))).2 ≠ 0 ∧
    (DuctTapeDB.upsert_document
      (DuctTapeDB.upsert_document
        (DuctTapeDB.upsert_document ⟨⟨[], 0⟩, 0⟩
          (Json.obj (.cons "id" (.int 0) .nil))).1
        (Json.obj (.cons "id" (.int 5) .nil))).1
      (Json.obj (.cons "id" (.int 0) (.cons "v" (.int 2) .nil)))).2 = 5 := by
  decide

/-- C5 (amended): `find(upsert(d))` returns a row whose data deep-equals
the stored document's data.  It holds unconditionally in the async
variant (which stores `d["data"]`), and in the synchronous variant
(which stores the whole document) for every document whose id is absent,
null, or a non-zero integer; for id 0 the synchronous return value can
name a different row (see the counterexample). -/
theorem find_upsert_roundtrip (t : Table) (doc : HookLoopTable.Doc)
    (c : DuctTapeDB.SyncConn) (sdoc : Json)
    (hwf : t.WF) (hwfc : c.table.WF)
    (hid : DuctTapeDB.getId sdoc = none ∨
      ∃ i, DuctTapeDB.getId sdoc = some i ∧ i ≠ 0) :
    HookLoopTable.find (HookLoopTable.upsert t doc).1
        (HookLoopTable.upsert t doc).2 =
      some ((HookLoopTable.upsert t doc).2, doc.data) ∧
    DuctTapeDB.find (DuctTapeDB.upsert_document c sdoc).1
        (DuctTapeDB.upsert_document c sdoc).2 =
      some ((DuctTapeDB.upsert_document c sdoc).2, sdoc) := by
  constructor
  · cases hdoc : doc.id? with
    | none =>
        show (HookLoopTable.upsert t doc).1.findRow _ = _
        simp only [HookLoopTable.upsert, hdoc]
        exact findRow_insertAuto t doc.data hwf
    | some i =>
        show (HookLoopTable.upsert t doc).1.findRow _ = _
        simp only [HookLoopTable.upsert, hdoc]
        exact findRow_upsertAt t i doc.data
  · rcases hid with hnone | ⟨i, hsome, hz⟩
    · show (DuctTapeDB.upsert_document c sdoc).1.table.findRow _ = _
      simp only [DuctTapeDB.upsert_document, hnone]
      exact findRow_insertAuto c.table sdoc hwfc
    · show (DuctTapeDB.upsert_document c sdoc).1.table.findRow _ = _
      simp only [DuctTapeDB.upsert_document, hsome, if_neg hz]
      by_cases hhas : c.table.hasId i
      · simp only [if_pos hhas]
        exact findRow_upsertAt c.table i sdoc
      · simp only [if_neg hhas]
        exact findRow_upsertAt c.table i sdoc

/-- Witness for C5: round-trips through a concrete two-row store, with
an id-less async document and a synchronous document carrying id 7. -/
theorem find_upsert_roundtrip_witness :
    (Table.WF ⟨[(1, Json.null)], 3⟩ ∧
      Table.WF (⟨⟨[(1, Json.null)], 3⟩, 0⟩ : DuctTapeDB.SyncConn).table ∧
      (DuctTapeDB.getId (Json.obj (.cons "id" (.int 7) .nil)) = none ∨
        ∃ i, DuctTapeDB.getId (Json.obj (.cons "id" (.int 7) .nil)) = some i ∧
          i ≠ 0)) ∧
    (HookLoopTable.find
        (HookLoopTable.upsert ⟨[(1, Json.null)], 3⟩ ⟨none, Json.int 42⟩).1
        (HookLoopTable.upsert ⟨[(1, Json.null)], 3⟩ ⟨none, Json.int 42⟩).2 =
      some ((HookLoopTable.upsert ⟨[(1, Json.null)], 3⟩ ⟨none, Json.int 42⟩).2,
        Json.int 42) ∧
    DuctTapeDB.find
        (DuctTapeDB.upsert_document ⟨⟨[(1, Json.null)], 3⟩, 0⟩
          (Json.obj (.cons "id" (.int 7) .nil))).1
        (DuctTapeDB.upsert_document ⟨⟨[(1, Json.null)], 3⟩, 0⟩
          (Json.obj (.cons "id" (.int 7) .nil))).2 =
      some ((DuctTapeDB.upsert_document ⟨⟨[(1, Json.null)], 3⟩, 0⟩
          (Json.obj (.cons "id" (.int 7) .nil))).2,
        Json.obj (.cons "id" (.int 7) .nil))) :=
  ⟨⟨by decide, by decide, by decide⟩,
   find_upsert_roundtrip ⟨[(1, Json.null)], 3⟩ ⟨none, Json.int 42⟩
     ⟨⟨[(1, Json.null)], 3⟩, 0⟩ (Json.obj (.cons "id" (.int 7) .nil))
     (by decide) (by decide) (by decide)⟩

/-- Counterexample for C5 as stated: in the synchronous variant, after
inserting `{"id": 0}` and `{"id": 5}` on one connection, upserting
`d = {"id": 0, "v": 2}` and looking up the returned id yields row 5
with `{"id": 5}` as data — not deep-equal to `d` — because the id-0
update path returns the stale `cursor.lastrowid` 5. -/
theorem sync_roundtrip_id_zero_fails :
    DuctTapeDB.find
      (DuctTapeDB.upsert_document
        (DuctTapeDB.upsert_document
          (DuctTapeDB.upsert_document ⟨⟨[], 0⟩, 0⟩
            (Json.obj (.cons "id" (.int 0) .nil))).1
          (Json.obj (.cons "id" (.int 5) .nil))).1
        (Json.obj (.cons "id" (.int 0) (.cons "v" (.int 2) .nil)))).1
      (DuctTapeDB.upsert_document
        (DuctTapeDB.upsert_document
          (DuctTapeDB.upsert_document ⟨⟨[], 0⟩, 0⟩
            (Json.obj (.cons "id" (.int 0) .nil))).1
          (Json.obj (.cons "id" (.int 5) .nil))).1
        (Json.obj (.cons "id" (.int 0) (.cons "v" (.int 2) .nil)))).2 =
      some (5, Json.obj (.cons "id" (.int 5) .nil)) ∧
    Json.obj (.cons "id" (.int 5) .nil) ≠
      Json.obj (.cons "id" (.int 0) (.cons "v" (.int 2) .nil)) := by
  decide

/-! ## C4: bulk_save commit/failure behaviour -/

/-- C4 (amended): `bulk_save` commits only on the all-success path —
after every statement and id assignment — and on a failing statement the
exception propagates with no ids returned and the committed state
untouched; but the code never issues a ROLLBACK: the statements executed
before the failure remain pending in the still-open transaction (they
are not durably discarded, and a later `commit()` on the same connection
would persist them). -/
theorem bulk_save_txn_behaviour (t : Table) (ms : List HookLoopModel.ModelRec)
    (k : Nat) (hk : k < ms.length) :
    (HookLoopModel.bulk_save_txn t ms (some k)).result = .error "statement failed" ∧
    (HookLoopModel.bulk_save_txn t ms (some k)).committed = t ∧
    (HookLoopModel.bulk_save_txn t ms (some k)).pending =
      some (HookLoopModel.applyPrefix t ms k) ∧
    (HookLoopModel.bulk_save_txn t ms none).result =
      .ok (HookLoopModel.bulk_save t ms).2 ∧
    (HookLoopModel.bulk_save_txn t ms none).committed =
      (HookLoopModel.bulk_save t ms).1 ∧
    (HookLoopModel.bulk_save_txn t ms none).pending = none := by
  refine ⟨?_, ?_, ?_, rfl, rfl, rfl⟩ <;>
    simp [HookLoopModel.bulk_save_txn, hk]

/-- Witness for C4 at a concrete batch of two id-less documents failing
at its second statement. -/
theorem bulk_save_txn_behaviour_witness :
    (1 < ([⟨none, Json.null⟩, ⟨none, Json.bool true⟩] :
        List HookLoopModel.ModelRec).length) ∧
    ((HookLoopModel.bulk_save_txn ⟨[], 0⟩
        [⟨none, Json.null⟩, ⟨none, Json.bool true⟩] (some 1)).result =
      .error "statement failed" ∧
    (HookLoopModel.bulk_save_txn ⟨[], 0⟩
        [⟨none, Json.null⟩, ⟨none, Json.bool true⟩] (some 1)).committed = ⟨[], 0⟩ ∧
    (HookLoopModel.bulk_save_txn ⟨[], 0⟩
        [⟨none, Json.null⟩, ⟨none, Json.bool true⟩] (some 1)).pending =
      some (HookLoopModel.applyPrefix ⟨[], 0⟩
        [⟨none, Json.null⟩, ⟨none, Json.bool true⟩] 1) ∧
    (HookLoopModel.bulk_save_txn ⟨[], 0⟩
        [⟨none, Json.null⟩, ⟨none, Json.bool true⟩] none).result =
      .ok (HookLoopModel.bulk_save ⟨[], 0⟩
        [⟨none, Json.null⟩, ⟨none, Json.bool true⟩]).2 ∧
    (HookLoopModel.bulk_save_txn ⟨[], 0⟩
        [⟨none, Json.null⟩, ⟨none, Json.bool true⟩] none).committed =
      (HookLoopModel.bulk_save ⟨[], 0⟩
        [⟨none, Json.null⟩, ⟨none, Json.bool true⟩]).1 ∧
    (HookLoopModel.bulk_save_txn ⟨[], 0⟩
        [⟨none, Json.null⟩, ⟨none, Json.bool true⟩] none).pending = none) :=
  ⟨by decide,
   bulk_save_txn_behaviour ⟨[], 0⟩ [⟨none, Json.null⟩, ⟨none, Json.bool true⟩]
     1 (by decide)⟩

/-- Counterexample for C4 as stated: when the second statement of a
two-document batch fails, the batch is NOT rolled back — the first
document's freshly inserted row `(1, null)` is still sitting in the
open, uncommitted transaction (a rollback would have discarded it and
left no transaction pending). -/
theorem bulk_save_no_rollback_on_failure :
    (HookLoopModel.bulk_save_txn ⟨[], 0⟩
        [⟨none, Json.null⟩, ⟨none, Json.bool true⟩] (some 1)).pending =
      some ⟨[(1, Json.null)], 1⟩ ∧
    (HookLoopModel.bulk_save_txn ⟨[], 0⟩
        [⟨none, Json.null⟩, ⟨none, Json.bool true⟩] (some 1)).pending ≠ none := by
  constructor
  · rfl
  · intro h
    cases h

/-! ## C1: id assignment order in bulk_save -/

/-- The run of ids AUTOINCREMENT hands out from sequence value `s`:
`[s+1, s+2, ..., s+n]`. -/
def ascRun (s : Int) : Nat → List Int
  | 0 => []
  | n + 1 => (s + 1) :: ascRun (s + 1) n

theorem ascRun_length (s : Int) (n : Nat) : (ascRun s n).length = n := by
  induction n generalizing s with
  | zero => rfl
  | succ n ih => simp [ascRun, ih]

theorem ascRun_mem (n : Nat) (s : Int) : ∀ x ∈ ascRun s n, s + 1 ≤ x ∧ x ≤ s + n := by
  induction n generalizing s with
  | zero => simp [ascRun]
  | succ n ih =>
      intro x hx
      rcases List.mem_cons.mp hx with rfl | hx'
      · constructor
        · omega
        · push_cast
          omega
      · have := ih (s + 1) x hx'
        push_cast at this ⊢
        omega

theorem ascRun_sorted (n : Nat) (s : Int) :
    List.Pairwise (fun a b : Int => a ≤ b) (ascRun s n) := by
  induction n generalizing s with
  | zero => simp [ascRun]
  | succ n ih =>
      refine List.Pairwise.cons (fun x hx => ?_) (ih (s + 1))
      exact le_trans (by omega) (ascRun_mem n (s + 1) x hx).1

/-- `mergeSort` under the descending comparator computes the unique
descending-sorted permutation. -/
theorem mergeSortDesc_eq (l target : List Int) (hp : l.Perm target)
    (hs : List.Pairwise (fun a b : Int => b ≤ a) target) :
    l.mergeSort (fun a b => decide (b ≤ a)) = target := by
  haveI : IsAntisymm Int (fun a b : Int => b ≤ a) :=
    ⟨fun a b h1 h2 => le_antisymm h2 h1⟩
  refine List.eq_of_perm_of_sorted ((List.mergeSort_perm l _).trans hp) ?_ hs
  have hsorted := @List.sorted_mergeSort Int (fun a b : Int => decide (b ≤ a))
    (fun a b c h1 h2 => by
      simp only [decide_eq_true_eq] at h1 h2 ⊢
      omega)
    (fun a b => by
      rcases le_total b a with h | h <;> simp [h])
    l
  exact List.Pairwise.imp (fun h => by simpa using h) hsorted

/-- `SELECT id FROM t ORDER BY id DESC LIMIT n`: when the table's ids
are, as a multiset, some ids all at most `s` together with the run
`s+1 ... s+n`, the query returns exactly that run, descending. -/
theorem selectTopDesc_spec (t' : Table) (s : Int) (n : Nat) (old : List Int)
    (hold : ∀ i ∈ old, i ≤ s)
    (hperm : t'.ids.Perm (old ++ ascRun s n)) :
    HookLoopModel.selectTopDesc t' n = (ascRun s n).reverse := by
  haveI hTot : IsTotal Int (fun a b : Int => b ≤ a) := ⟨fun a b => le_total b a⟩
  haveI hTrans : IsTrans Int (fun a b : Int => b ≤ a) :=
    ⟨fun a b c h1 h2 => le_trans h2 h1⟩
  have hsortedOld : List.Pairwise (fun a b : Int => b ≤ a)
      (List.insertionSort (fun a b : Int => b ≤ a) old) :=
    List.sorted_insertionSort (fun a b : Int => b ≤ a) old
  have hpermOld : (List.insertionSort (fun a b : Int => b ≤ a) old).Perm old :=
    List.perm_insertionSort (fun a b : Int => b ≤ a) old
  have hpermTarget : t'.ids.Perm
      ((ascRun s n).reverse ++ List.insertionSort (fun a b : Int => b ≤ a) old) := by
    refine hperm.trans ?_
    refine (List.perm_append_comm).trans ?_
    exact List.Perm.append ((ascRun s n).reverse_perm).symm hpermOld.symm
  have hsortedTarget : List.Pairwise (fun a b : Int => b ≤ a)
      ((ascRun s n).reverse ++ List.insertionSort (fun a b : Int => b ≤ a) old) := by
    rw [List.pairwise_append]
    refine ⟨?_, hsortedOld, ?_⟩
    · rw [List.pairwise_reverse]
      exact ascRun_sorted n s
    · intro a ha b hb
      have ha' : s + 1 ≤ a :=
        (ascRun_mem n s a (List.mem_reverse.mp ha)).1
      have hb' : b ≤ s := hold b (hpermOld.mem_iff.mp hb)
      omega
  have hms := mergeSortDesc_eq t'.ids _ hpermTarget hsortedTarget
  unfold HookLoopModel.selectTopDesc
  rw [hms]
  have hlen : ((ascRun s n).reverse).length = n := by
    rw [List.length_reverse, ascRun_length]
  exact List.take_left' hlen

/-- In-place data updates do not change the row ids. -/
theorem updateData_map_fst (rows : List (Int × Json)) (i : Int) (d : Json) :
    (updateData rows i d).map Prod.fst = rows.map Prod.fst := by
  unfold updateData
  rw [List.map_map]
  refine List.map_congr_left (fun r hr => ?_)
  by_cases h : (r.1 == i) = true
  · simp only [Function.comp_apply, if_pos h]
    simpa using (beq_iff_eq.mp h).symm
  · have h' : ¬ r.1 = i := by simpa using h
    simp [Function.comp_apply, h']

/-- An explicit upsert whose id does not exceed the sequence leaves the
sequence unchanged. -/
theorem upsertAt_seq (t : Table) (i : Int) (d : Json) (h : i ≤ t.seq) :
    (t.upsertAt i d).seq = t.seq := by
  unfold Table.upsertAt
  split <;> simp [max_eq_left h]

/-- An explicit upsert either keeps the id multiset or appends its id. -/
theorem upsertAt_ids (t : Table) (i : Int) (d : Json) :
    (t.upsertAt i d).ids = t.ids ∨ (t.upsertAt i d).ids = t.ids ++ [i] := by
  unfold Table.upsertAt
  by_cases h : t.hasId i
  · left
    simp only [if_pos h, Table.ids]
    exact updateData_map_fst t.rows i d
  · right
    simp [if_neg h, Table.ids]

/-- Explicit upserts with ids within the sequence preserve the
sequence invariant. -/
theorem upsertAt_WF (t : Table) (i : Int) (d : Json) (hwf : t.WF) (h : i ≤ t.seq) :
    (t.upsertAt i d).WF := by
  intro j hj
  rw [upsertAt_seq t i d h]
  rcases upsertAt_ids t i d with hids | hids
  · exact hwf j (hids ▸ hj)
  · rw [hids] at hj
    rcases List.mem_append.mp hj with hj' | hj'
    · exact hwf j hj'
    · rcases List.mem_singleton.mp hj' with rfl
      exact h

/-- Auto-assigning inserts preserve the sequence invariant. -/
theorem insertAuto_WF (t : Table) (d : Json) (hwf : t.WF) :
    (t.insertAuto d).1.WF := by
  intro j hj
  simp only [Table.insertAuto, Table.ids, List.map_append] at hj ⊢
  rcases List.mem_append.mp hj with hj' | hj'
  · have := hwf j hj'
    omega
  · simp at hj'
    omega

theorem numNew_cons_some (i : Int) (d : Json) (rest : List HookLoopModel.ModelRec) :
    HookLoopModel.numNew (⟨some i, d⟩ :: rest) = HookLoopModel.numNew rest := by
  simp [HookLoopModel.numNew, List.filter_cons]

theorem numNew_cons_none (d : Json) (rest : List HookLoopModel.ModelRec) :
    HookLoopModel.numNew (⟨none, d⟩ :: rest) = HookLoopModel.numNew rest + 1 := by
  simp [HookLoopModel.numNew, List.filter_cons]

/-- Running the batch statements: the sequence advances by exactly the
number of id-less documents; the invariant is preserved; and the final
id multiset is the initial ids, plus some explicit ids bounded by `b`,
plus the fresh run `t.seq+1 ... t.seq+numNew`. -/
theorem execBatchIds_spec (b : Int) (ms : List HookLoopModel.ModelRec) :
    ∀ (t : Table), t.WF → b ≤ t.seq →
      (∀ m ∈ ms, ∀ i, m.id = some i → i ≤ b) →
      (HookLoopModel.execBatchIds t ms).1.seq =
          t.seq + (HookLoopModel.numNew ms : Int) ∧
      (HookLoopModel.execBatchIds t ms).1.WF ∧
      ∃ fresh : List Int, (∀ i ∈ fresh, i ≤ b) ∧
        (HookLoopModel.execBatchIds t ms).1.ids.Perm
          ((t.ids ++ fresh) ++ ascRun t.seq (HookLoopModel.numNew ms)) := by
  induction ms with
  | nil =>
      intro t hwf hb hex
      refine ⟨by simp [HookLoopModel.execBatchIds, HookLoopModel.numNew], hwf,
        [], by simp, ?_⟩
      simp [HookLoopModel.execBatchIds, HookLoopModel.numNew, ascRun]
  | cons m rest ih =>
      intro t hwf hb hex
      obtain ⟨mid, mdata⟩ := m
      cases mid with
      | some i =>
          have hib : i ≤ b := hex ⟨some i, mdata⟩ (List.mem_cons_self _ _) i rfl
          have hit : i ≤ t.seq := le_trans hib hb
          have hseq1 := upsertAt_seq t i mdata hit
          have hwf1 := upsertAt_WF t i mdata hwf hit
          have hb1 : b ≤ (t.upsertAt i mdata).seq := by rw [hseq1]; exact hb
          have hex1 : ∀ m' ∈ rest, ∀ j, m'.id = some j → j ≤ b :=
            fun m' hm' => hex m' (List.mem_cons_of_mem _ hm')
          obtain ⟨hseq', hwf', fresh, hfb, hperm⟩ :=
            ih (t.upsertAt i mdata) hwf1 hb1 hex1
          have hred : HookLoopModel.execBatchIds t (⟨some i, mdata⟩ :: rest) =
              ((HookLoopModel.execBatchIds (t.upsertAt i mdata) rest).1,
               i :: (HookLoopModel.execBatchIds (t.upsertAt i mdata) rest).2) := rfl
          rw [hred, numNew_cons_some]
      -- seq
          refine ⟨by rw [hseq', hseq1], hwf', ?_⟩
          rcases upsertAt_ids t i mdata with hids | hids
          · exact ⟨fresh, hfb, by rw [hids, hseq1] at hperm; exact hperm⟩
          · refine ⟨i :: fresh, ?_, ?_⟩
            · intro j hj
              rcases List.mem_cons.mp hj with rfl | hj'
              · exact hib
              · exact hfb j hj'
            · rw [hids, hseq1] at hperm
              rw [List.append_assoc t.ids [i] fresh] at hperm
              exact hperm
      | none =>
          have hwf1 := insertAuto_WF t mdata hwf
          have hseq1 : (t.insertAuto mdata).1.seq = t.seq + 1 := rfl
          have hb1 : b ≤ (t.insertAuto mdata).1.seq := by rw [hseq1]; omega
          have hex1 : ∀ m' ∈ rest, ∀ j, m'.id = some j → j ≤ b :=
            fun m' hm' => hex m' (List.mem_cons_of_mem _ hm')
          obtain ⟨hseq', hwf', fresh, hfb, hperm⟩ :=
            ih (t.insertAuto mdata).1 hwf1 hb1 hex1
          have hred : HookLoopModel.execBatchIds t (⟨none, mdata⟩ :: rest) =
              ((HookLoopModel.execBatchIds (t.insertAuto mdata).1 rest).1,
               (t.seq + 1) ::
                 (HookLoopModel.execBatchIds (t.insertAuto mdata).1 rest).2) := rfl
          rw [hred, numNew_cons_none]
          refine ⟨?_, hwf', ?_⟩
          · rw [hseq', hseq1]
            push_cast
            ring
          · have hids1 : (t.insertAuto mdata).1.ids = t.ids ++ [t.seq + 1] := by
              simp [Table.insertAuto, Table.ids]
            have hrun : ascRun t.seq (HookLoopModel.numNew rest + 1) =
                (t.seq + 1) :: ascRun (t.seq + 1) (HookLoopModel.numNew rest) := rfl
            refine ⟨fresh, hfb, ?_⟩
            rw [hrun]
            rw [hids1, hseq1] at hperm
            refine hperm.trans ?_
            rw [List.append_assoc t.ids [t.seq + 1] fresh]
            rw [List.append_assoc]
            rw [List.append_assoc t.ids fresh
              ((t.seq + 1) :: ascRun (t.seq + 1) (HookLoopModel.numNew rest))]
            refine List.Perm.append_left t.ids ?_
            exact List.perm_middle.symm

/-- Feeding the fresh run `t.seq+1 ...` to the reverse-zip assignment
reproduces, per model in submission order, the rowid its own statement
actually touched. -/
theorem execBatchIds_returned (b : Int) (ms : List HookLoopModel.ModelRec) :
    ∀ (t : Table), b ≤ t.seq →
      (∀ m ∈ ms, ∀ i, m.id = some i → i ≤ b) →
      HookLoopModel.assignIds ms (ascRun t.seq (HookLoopModel.numNew ms)) =
        (HookLoopModel.execBatchIds t ms).2.map some := by
  induction ms with
  | nil => intro t _ _; rfl
  | cons m rest ih =>
      intro t hb hex
      obtain ⟨mid, mdata⟩ := m
      cases mid with
      | some i =>
          have hit : i ≤ t.seq :=
            le_trans (hex ⟨some i, mdata⟩ (List.mem_cons_self _ _) i rfl) hb
          have hseq1 := upsertAt_seq t i mdata hit
          have hex1 : ∀ m' ∈ rest, ∀ j, m'.id = some j → j ≤ b :=
            fun m' hm' => hex m' (List.mem_cons_of_mem _ hm')
          have hb1 : b ≤ (t.upsertAt i mdata).seq := by rw [hseq1]; exact hb
          rw [numNew_cons_some]
          show some i :: HookLoopModel.assignIds rest
              (ascRun t.seq (HookLoopModel.numNew rest)) =
            some i :: (HookLoopModel.execBatchIds (t.upsertAt i mdata) rest).2.map some
          rw [← hseq1]
          rw [ih (t.upsertAt i mdata) hb1 hex1]
      | none =>
          have hex1 : ∀ m' ∈ rest, ∀ j, m'.id = some j → j ≤ b :=
            fun m' hm' => hex m' (List.mem_cons_of_mem _ hm')
          have hseq1 : (t.insertAuto mdata).1.seq = t.seq + 1 := rfl
          have hb1 : b ≤ (t.insertAuto mdata).1.seq := by rw [hseq1]; omega
          rw [numNew_cons_none]
          show some (t.seq + 1) :: HookLoopModel.assignIds rest
              (ascRun (t.seq + 1) (HookLoopModel.numNew rest)) =
            some (t.seq + 1) ::
              (HookLoopModel.execBatchIds (t.insertAuto mdata).1 rest).2.map some
          rw [← hseq1]
          rw [ih (t.insertAuto mdata).1 hb1 hex1]

/-- One actually-touched rowid per submitted model. -/
theorem execBatchIds_length (ms : List HookLoopModel.ModelRec) :
    ∀ t : Table, (HookLoopModel.execBatchIds t ms).2.length = ms.length := by
  induction ms with
  | nil => intro t; rfl
  | cons m rest ih =>
      intro t
      obtain ⟨mid, mdata⟩ := m
      cases mid with
      | some i =>
          show ((HookLoopModel.execBatchIds (t.upsertAt i mdata) rest).2.length) + 1 =
            rest.length + 1
          rw [ih]
      | none =>
          show ((HookLoopModel.execBatchIds (t.insertAuto mdata).1 rest).2.length) + 1 =
            rest.length + 1
          rw [ih]

/-- C1 (amended): for every batch over a well-formed table in which each
explicitly supplied id does not exceed the table's sequence value (so in
particular for any batch of only id-less documents, with no concurrent
writers), `bulk_save` returns one id per input document in input order,
and every document — id-less ones included — receives exactly the rowid
of the row its own statement inserted or updated; generated ids land on
the id-less documents in submission order.  Without the bound on
explicit ids the mapping breaks even with no concurrent writer (see the
counterexample). -/
theorem bulk_save_ordered (t : Table) (ms : List HookLoopModel.ModelRec)
    (hwf : t.WF)
    (hex : ∀ m ∈ ms, ∀ i, m.id = some i → i ≤ t.seq) :
    (HookLoopModel.bulk_save t ms).2 =
      (HookLoopModel.execBatchIds t ms).2.map some ∧
    (HookLoopModel.bulk_save t ms).2.length = ms.length := by
  obtain ⟨hseq, hwf', fresh, hfb, hperm⟩ :=
    execBatchIds_spec t.seq ms t hwf le_rfl hex
  have hold : ∀ i ∈ t.ids ++ fresh, i ≤ t.seq := by
    intro i hi
    rcases List.mem_append.mp hi with hi' | hi'
    · exact hwf i hi'
    · exact hfb i hi'
  have hsel : HookLoopModel.selectTopDesc (HookLoopModel.execBatchIds t ms).1
      (HookLoopModel.numNew ms) =
      (ascRun t.seq (HookLoopModel.numNew ms)).reverse :=
    selectTopDesc_spec _ t.seq _ (t.ids ++ fresh) hold hperm
  have hmain : (HookLoopModel.bulk_save t ms).2 =
      (HookLoopModel.execBatchIds t ms).2.map some := by
    show HookLoopModel.assignIds ms
        ((HookLoopModel.selectTopDesc (HookLoopModel.execBatchIds t ms).1
          (HookLoopModel.numNew ms)).reverse) = _
    rw [hsel, List.reverse_reverse]
    exact execBatchIds_returned t.seq ms t le_rfl hex
  refine ⟨hmain, ?_⟩
  rw [hmain, List.length_map, execBatchIds_length]

/-- Witness for C1: a table holding row 1 with sequence 5, and a batch
mixing two id-less documents around an explicit update of row 1. -/
theorem bulk_save_ordered_witness :
    (Table.WF ⟨[(1, Json.null)], 5⟩ ∧
      (∀ m ∈ ([⟨none, Json.int 10⟩, ⟨some 1, Json.int 20⟩, ⟨none, Json.int 30⟩] :
          List HookLoopModel.ModelRec), ∀ i, m.id = some i → i ≤ (5 : Int))) ∧
    ((HookLoopModel.bulk_save ⟨[(1, Json.null)], 5⟩
        [⟨none, Json.int 10⟩, ⟨some 1, Json.int 20⟩, ⟨none, Json.int 30⟩]).2 =
      (HookLoopModel.execBatchIds ⟨[(1, Json.null)], 5⟩
        [⟨none, Json.int 10⟩, ⟨some 1, Json.int 20⟩, ⟨none, Json.int 30⟩]).2.map some ∧
    (HookLoopModel.bulk_save ⟨[(1, Json.null)], 5⟩
        [⟨none, Json.int 10⟩, ⟨some 1, Json.int 20⟩, ⟨none, Json.int 30⟩]).2.length =
      ([⟨none, Json.int 10⟩, ⟨some 1, Json.int 20⟩, ⟨none, Json.int 30⟩] :
        List HookLoopModel.ModelRec).length) :=
  ⟨⟨by decide, by decide⟩,
   bulk_save_ordered ⟨[(1, Json.null)], 5⟩
     [⟨none, Json.int 10⟩, ⟨some 1, Json.int 20⟩, ⟨none, Json.int 30⟩]
     (by decide) (by decide)⟩

unseal List.merge List.mergeSort in
/-- Counterexample for C1 as stated: with no concurrent writer at all,
the batch `[{id: null}, {id: 1000}]` on an empty table inserts its first
document at rowid 1 and its second at rowid 1000, yet `bulk_save`
returns `[1000, 1000]` — the id-less document is assigned the *other*
document's id, because `ORDER BY id DESC LIMIT 1` picks up the large
explicit id instead of the generated one. -/
theorem bulk_save_misassigns_ids :
    (HookLoopModel.bulk_save ⟨[], 0⟩
        [⟨none, Json.null⟩, ⟨some 1000, Json.null⟩]).2 =
      [some 1000, some 1000] ∧
    (HookLoopModel.execBatchIds ⟨[], 0⟩
        [⟨none, Json.null⟩, ⟨some 1000, Json.null⟩]).2 = [1, 1000] ∧
    (HookLoopModel.bulk_save ⟨[], 0⟩
        [⟨none, Json.null⟩, ⟨some 1000, Json.null⟩]).2 ≠
      (HookLoopModel.execBatchIds ⟨[], 0⟩
        [⟨none, Json.null⟩, ⟨some 1000, Json.null⟩]).2.map some := by
  refine ⟨by decide, by decide, by decide⟩
